import Mathlib

/-!
Verification of the automation/trust/sync core of a desktop activity agent.

The definitions below are shallow embeddings of the Rust sources:
  - `automation/trust.rs`  (trust levels, danger classification)
  - `automation/queue.rs`  (task ordering, command sanitizer)
  - `sync.rs`              (URL validation, retry loop, ack-based retirement)
  - `collector/mod.rs`     (bounded event buffer with warning hysteresis)
Machine strings are Lean `String`s; timestamps are `Nat` (chrono timestamps
are only ever compared, never inspected).
-/

namespace Observer

/-! ## Trust policy (automation/trust.rs) -/

/-- Embeds `enum TrustLevel` from `automation/trust.rs`. -/
inductive TrustLevel where
  | askAlways
  | askDangerous
  | fullTrust
deriving DecidableEq

/-- Embeds `enum DangerLevel`; the Rust derive of `Ord` orders by declaration
(discriminant) order: Safe < Moderate < Dangerous. -/
inductive DangerLevel where
  | safe
  | moderate
  | dangerous
deriving DecidableEq

/-- Discriminant of `DangerLevel`, giving the derived Rust `Ord`. -/
def DangerLevel.toNat : DangerLevel → Nat
  | .safe => 0
  | .moderate => 1
  | .dangerous => 2

/-- Embeds `TrustLevel::requires_confirmation`; the `AskDangerous` arm mirrors
`danger >= DangerLevel::Dangerous` via the discriminant order. -/
def TrustLevel.requires_confirmation : TrustLevel → DangerLevel → Bool
  | .askAlways, _ => true
  | .askDangerous, danger => decide (DangerLevel.dangerous.toNat ≤ danger.toNat)
  | .fullTrust, _ => false

/-- Models Rust `str::to_lowercase`, character by character. Rust lowercases
per full Unicode while `Char.toLower` only lowers basic latin letters, but
every call site compares the result against short ASCII alternatives whose
Unicode case-insensitive preimages are ASCII, so the embedding agrees with
the source wherever the result is observed. -/
def rustToLowercase (s : String) : String :=
  String.mk (s.data.map Char.toLower)

/-- Accepted lowercase aliases in `TrustLevel::from_str`. -/
def trustAliases : List String :=
  ["ask_always", "always", "ask_dangerous", "dangerous", "full_trust", "full", "trusted"]

/-- Embeds the `match s.to_lowercase().as_str()` body of `TrustLevel::from_str`
(applied to the already-lowercased string). -/
def trustFromLower (t : String) : Option TrustLevel :=
  if t = "ask_always" ∨ t = "always" then some .askAlways
  else if t = "ask_dangerous" ∨ t = "dangerous" then some .askDangerous
  else if t = "full_trust" ∨ t = "full" ∨ t = "trusted" then some .fullTrust
  else none

/-- Embeds `TrustLevel::from_str`. -/
def TrustLevel.from_str (s : String) : Option TrustLevel :=
  trustFromLower (rustToLowercase s)

/-- Embeds `TrustLevel::to_str`. -/
def TrustLevel.to_str : TrustLevel → String
  | .askAlways => "ask_always"
  | .askDangerous => "ask_dangerous"
  | .fullTrust => "full_trust"

/-! ## Task commands and danger classification -/

/-- Embeds `enum TaskCommand` from `automation/queue.rs`. The `custom` payload
(`serde_json::Value`) is opaque to every function verified here, so it is
carried as an uninterpreted string. -/
inductive TaskCommand where
  | click (x y : Int) (button : String)
  | type (text : String)
  | hotkey (modifiers : List String) (key : String)
  | screenshot (save_path : Option String)
  | browserNavigate (browser url : String)
  | browserGetUrl (browser : String)
  | wait (milliseconds : Nat)
  | custom (name : String) (params : String)

/-- Modifier strings treated as control/command keys by `is_dangerous_hotkey`. -/
def ctrlCmdModifiers : List String := ["meta", "cmd", "command", "control", "ctrl"]

/-- Keys (lowercased) treated as system-sensitive by `is_dangerous_hotkey`. -/
def dangerousKeys : List String := ["q", "w", "delete", "backspace", "escape"]

/-- Embeds `is_dangerous_hotkey` from `automation/trust.rs`. -/
def is_dangerous_hotkey (modifiers : List String) (key : String) : Bool :=
  let has_cmd_or_ctrl := modifiers.any fun m =>
    m == "meta" || m == "cmd" || m == "command" || m == "control" || m == "ctrl"
  if has_cmd_or_ctrl then
    let k := rustToLowercase key
    k == "q" || k == "w" || k == "delete" || k == "backspace" || k == "escape"
  else
    false

/-- Embeds `classify_command_danger` from `automation/trust.rs`. Rust
`text.len()` is the UTF-8 byte length, hence `utf8ByteSize`. -/
def classify_command_danger : TaskCommand → DangerLevel
  | .screenshot _ => .safe
  | .browserGetUrl _ => .safe
  | .wait _ => .safe
  | .click _ _ _ => .moderate
  | .type text =>
      if 100 < text.utf8ByteSize ∨ text.contains '\n' then .dangerous else .moderate
  | .browserNavigate _ _ => .moderate
  | .hotkey modifiers key =>
      if is_dangerous_hotkey modifiers key then .dangerous else .moderate
  | .custom _ _ => .dangerous

/-! ## Command sanitizer (automation/queue.rs, mod custom_commands) -/

/-- Unicode White_Space, as used by Rust `char::is_whitespace` and by the
regex crate's `\s` class (Unicode mode, the default). -/
def rustIsWhitespace (c : Char) : Bool :=
  let n := c.toNat
  n == 0x9 || n == 0xA || n == 0xB || n == 0xC || n == 0xD || n == 0x20 ||
  n == 0x85 || n == 0xA0 || n == 0x1680 || (0x2000 ≤ n && n ≤ 0x200A) ||
  n == 0x2028 || n == 0x2029 || n == 0x202F || n == 0x205F || n == 0x3000

/-- Characters of the regex character class in the first deny-list pattern. -/
def dangerousChars : List Char := [';', '&', '|', '`', '$']

/-- Matches whitespace-star-then-ampersand, the continuation of the deny-list
regex for redirect-to-ampersand after its leading angle bracket. -/
def wsThenAmp : List Char → Bool
  | [] => false
  | c :: rest => if c == '&' then true else if rustIsWhitespace c then wsThenAmp rest else false

/-- Decides whether the redirect-to-ampersand deny-list regex matches anywhere
in the string: an angle bracket, optional whitespace, then an ampersand. -/
def hasRedirAmp : List Char → Bool
  | [] => false
  | c :: rest => (c == '>' && wsThenAmp rest) || hasRedirAmp rest

/-- Embeds `custom_commands::sanitize_command`: rejects empty or
whitespace-only input (`cmd.trim().is_empty()` holds exactly when every
character is whitespace), then tries the four deny-list regexes in order. -/
def sanitize_command (cmd : String) : Except String String :=
  if cmd.data.all rustIsWhitespace then
    .error "Command cannot be empty"
  else if cmd.data.any (fun c => dangerousChars.contains c) then
    .error "Command contains dangerous pattern: separator"
  else if "$(".data <:+: cmd.data then
    .error "Command contains dangerous pattern: command substitution"
  else if "../".data <:+: cmd.data then
    .error "Command contains dangerous pattern: directory traversal"
  else if hasRedirAmp cmd.data then
    .error "Command contains dangerous pattern: redirect"
  else
    .ok cmd

/-- True when a sanitizer result is the `Ok` branch. -/
def sanitizeOk : Except String String → Bool
  | .ok _ => true
  | .error _ => false

/-! ## Task ordering (automation/queue.rs) -/

/-- Embeds `enum TaskPriority` with its explicit discriminants. -/
inductive TaskPriority where
  | low
  | normal
  | high
  | urgent
deriving DecidableEq

/-- Discriminant of `TaskPriority`, giving the derived Rust `Ord`. -/
def TaskPriority.toNat : TaskPriority → Nat
  | .low => 0
  | .normal => 1
  | .high => 2
  | .urgent => 3

/-- Embeds `struct AutomationTask`; `created_at` is the chrono creation
timestamp, modelled as a `Nat` since the code only ever compares it. -/
structure AutomationTask where
  id : String
  priority : TaskPriority
  command : TaskCommand
  created_at : Nat

/-- Embeds `impl Ord for AutomationTask`: priority compared first; on equal
priorities the comparison is reversed on `created_at` (earlier creation sorts
greater, so the max-heap pops it first). -/
def cmpTask (a b : AutomationTask) : Ordering :=
  match compare a.priority.toNat b.priority.toNat with
  | .eq => compare b.created_at a.created_at
  | ord => ord

/-- Heap-drain order relation: `taskPopsFirst a b` holds when the comparator
does not place `a` strictly below `b`, i.e. a max-heap may pop `a` no later
than `b`. -/
def taskPopsFirst (a b : AutomationTask) : Prop := cmpTask a b ≠ .lt

instance : DecidableRel taskPopsFirst :=
  fun a b => inferInstanceAs (Decidable (cmpTask a b ≠ .lt))

/-- Models draining the queue's `BinaryHeap`: repeatedly popping a maximal
task (under `AutomationTask::cmp`) yields the comparator-descending ordering
of the submitted tasks. -/
def dequeueAll (tasks : List AutomationTask) : List AutomationTask :=
  tasks.insertionSort taskPopsFirst

/-! ## Events and the sync engine (sync.rs) -/

/-- Embeds the sync-relevant fields of `collector::Event`; the enrichment
fields and `data` payload are opaque to the sync engine, so `data` is carried
as an uninterpreted string. -/
structure Event where
  id : String
  device_id : String
  event_type : String
  timestamp : Nat
  app_name : Option String
  window_title : Option String
  url : Option String
  data : String
  category : Option String

/-- Retry budget `MAX_RETRIES` from `sync.rs`. -/
def MAX_RETRIES : Nat := 3

/-- Base backoff delay `INITIAL_RETRY_DELAY_MS` from `sync.rs`. -/
def INITIAL_RETRY_DELAY_MS : Nat := 1000

/-- Models a `reqwest::Error` as observed by `is_transient_error`. -/
structure ReqError where
  is_timeout : Bool
  is_connect : Bool
  status : Option Nat

/-- Models the outcome of one `request.send().await`: either an HTTP response
(status plus the result of parsing its body as `SyncResponse`, `none` when the
body does not parse) or a transport-level error. -/
inductive ReqOutcome where
  | response (status : Nat) (ackedParse : Option (List String))
  | failure (e : ReqError)

/-- Models `StatusCode::is_success` (2xx). -/
def statusIsSuccess (s : Nat) : Bool := 200 ≤ s && s < 300

/-- Models `StatusCode::is_server_error` (5xx). -/
def statusIsServerError (s : Nat) : Bool := 500 ≤ s && s < 600

/-- Embeds `is_transient_error` from `sync.rs`: timeout, connection failure,
or a 5xx status attached to the error. -/
def is_transient_error (e : ReqError) : Bool :=
  e.is_timeout || e.is_connect ||
    (match e.status with
     | some s => statusIsServerError s
     | none => false)

/-- Observable trace of one `sync_events` call: its returned value, how many
HTTP attempts were made, and the backoff delays slept between attempts. -/
structure SyncTrace where
  result : Except String (List String)
  attempts : Nat
  delays : List Nat

/-- Embeds the retry loop `for attempt in 0..=MAX_RETRIES` of `sync_events`.
The network is abstracted as a map from attempt index to outcome; `fuel`
counts the loop iterations still available (`MAX_RETRIES + 1 - attempt`), and
the fuel-exhausted base case is the unreachable fall-through after the loop.
Before every attempt but the first, the loop sleeps
`INITIAL_RETRY_DELAY_MS * 2^(attempt-1)` milliseconds. -/
def syncGo (events : List Event) (net : Nat → ReqOutcome) : Nat → Nat → SyncTrace
  | 0, _ => ⟨.error "Max retries exceeded", 0, []⟩
  | fuel + 1, attempt =>
    let d : List Nat :=
      if 0 < attempt then [INITIAL_RETRY_DELAY_MS * 2 ^ (attempt - 1)] else []
    match net attempt with
    | .response status parsed =>
      if statusIsSuccess status then
        match parsed with
        | some ids => ⟨.ok ids, 1, d⟩
        | none => ⟨.ok (events.map (·.id)), 1, d⟩
      else if statusIsServerError status && decide (attempt < MAX_RETRIES) then
        let t := syncGo events net fuel (attempt + 1)
        ⟨t.result, t.attempts + 1, d ++ t.delays⟩
      else
        ⟨.error ("Server returned status: " ++ toString status), 1, d⟩
    | .failure e =>
      if is_transient_error e && decide (attempt < MAX_RETRIES) then
        let t := syncGo events net fuel (attempt + 1)
        ⟨t.result, t.attempts + 1, d ++ t.delays⟩
      else
        ⟨.error "request failed", 1, d⟩

/-- Embeds `sync_events`: the retry loop entered at attempt 0 with
`MAX_RETRIES + 1` iterations available. -/
def sync_events (events : List Event) (net : Nat → ReqOutcome) : SyncTrace :=
  syncGo events net (MAX_RETRIES + 1) 0

/-- Embeds the acknowledgment step shared by `start_sync_service` and
`manual_sync`: `events_buffer.retain(|e| !acked_set.contains(&e.id))`. -/
def applyAcks (buffer : List Event) (acked_event_ids : List String) : List Event :=
  buffer.filter fun e => !(acked_event_ids.contains e.id)

/-- Embeds one iteration of the `start_sync_service` loop body acting on the
buffer: skip when empty, otherwise sync a clone of the buffer and retain
exactly the unacknowledged events on success; on error the buffer is kept. -/
def syncCycle (buffer : List Event) (net : Nat → ReqOutcome) : List Event :=
  if buffer.isEmpty then buffer
  else
    match (sync_events buffer net).result with
    | .ok acked => applyAcks buffer acked
    | .error _ => buffer

/-- Embeds `manual_sync` acting on the buffer: identical retirement semantics
to the periodic path, but the outcome is returned to the caller. -/
def manual_sync (buffer : List Event) (net : Nat → ReqOutcome) :
    List Event × Except String Unit :=
  if buffer.isEmpty then (buffer, .ok ())
  else
    match (sync_events buffer net).result with
    | .ok acked => (applyAcks buffer acked, .ok ())
    | .error msg => (buffer, .error msg)

/-! ## Bounded collector buffer (collector/mod.rs, main.rs) -/

/-- Capacity bound `MAX_BUFFER_SIZE` from `main.rs`. -/
def MAX_BUFFER_SIZE : Nat := 10000

/-- High-water mark `BUFFER_WARNING_THRESHOLD` from `main.rs`. -/
def BUFFER_WARNING_THRESHOLD : Nat := 8000

/-- The collector-visible part of `AppState`: the shared event buffer and the
one-shot `buffer_warnings_logged` flag. -/
structure CollectorState where
  buffer : List Event
  warned : Bool

/-- Embeds the buffer-insert block of the collector loop: with `n` the length
before the push, evict index 0 when `n ≥ MAX_BUFFER_SIZE`; log the capacity
warning when `n ≥ BUFFER_WARNING_THRESHOLD` and the one-shot flag is clear,
setting the flag; clear the flag when `n < BUFFER_WARNING_THRESHOLD / 2`;
finally push the new event. Returns the new state and whether the capacity
warning was logged by this insert. -/
def insertEvent (s : CollectorState) (e : Event) : CollectorState × Bool :=
  let n := s.buffer.length
  let buf1 := if MAX_BUFFER_SIZE ≤ n then s.buffer.drop 1 else s.buffer
  let warnNow := decide (BUFFER_WARNING_THRESHOLD ≤ n) && !s.warned
  let warned1 := if warnNow then true else s.warned
  let warned2 := if n < BUFFER_WARNING_THRESHOLD / 2 then false else warned1
  (⟨buf1 ++ [e], warned2⟩, warnNow)

/-- Runs a sequence of collector inserts, counting logged capacity warnings. -/
def runInserts : CollectorState → List Event → CollectorState × Nat
  | s, [] => (s, 0)
  | s, e :: es =>
    let step := insertEvent s e
    let rest := runInserts step.1 es
    (rest.1, (if step.2 then 1 else 0) + rest.2)

/-! ## Endpoint validation (sync.rs: validate_url, is_internal_ip) -/

/-- Host component of a parsed `Url`, as classified by the url crate: a
domain name, an IPv4 address (octets), or an IPv6 address (16-bit segments). -/
inductive UrlHost where
  | domain (name : String)
  | ipv4 (a b c d : Nat)
  | ipv6 (s0 s1 s2 s3 s4 s5 s6 s7 : Nat)

/-- Embeds `std::net::IpAddr`. -/
inductive IpAddr where
  | v4 (a b c d : Nat)
  | v6 (s0 s1 s2 s3 s4 s5 s6 s7 : Nat)

/-- A parsed URL as observed by `validate_url`: its scheme, its host (if any)
and its explicit port (`Url::port()` is `None` when the port is the scheme
default or absent). -/
structure ParsedUrl where
  scheme : String
  host : Option UrlHost
  port : Option Nat

/-- Embeds `is_internal_ip` from `sync.rs`: IPv4 loopback, RFC1918 private
ranges, link-local and multicast; IPv6 loopback, link-local `fe80::/10`,
unique-local `fc00::/7` and multicast `ff00::/8`. -/
def is_internal_ip : IpAddr → Bool
  | .v4 a b _ _ =>
      a == 127 || a == 10 || (a == 172 && (16 ≤ b && b ≤ 31)) ||
      (a == 192 && b == 168) || (a == 169 && b == 254) || 224 ≤ a
  | .v6 s0 s1 s2 s3 s4 s5 s6 s7 =>
      (s0 == 0 && s1 == 0 && s2 == 0 && s3 == 0 && s4 == 0 && s5 == 0 &&
        s6 == 0 && s7 == 1) ||
      (s0 &&& 0xffc0) == 0xfe80 || (s0 &&& 0xfe00) == 0xfc00 ||
      (s0 &&& 0xff00) == 0xff00

/-- Hexadecimal rendering of one IPv6 segment (lowercase, no padding). -/
def segHex (n : Nat) : String := String.mk (Nat.toDigits 16 n)

/-- Length of the run of zero segments starting at index `i`. -/
def zeroRunAt (segs : List Nat) (i : Nat) : Nat :=
  ((segs.drop i).takeWhile (· == 0)).length

/-- Serializes IPv6 segments the way the url crate renders a host: the
leftmost longest run of at least two zero segments is compressed to `::`. -/
def ipv6Body (segs : List Nat) : String :=
  let best := (List.range segs.length).foldl
    (fun acc i => if acc.2 < zeroRunAt segs i then (i, zeroRunAt segs i) else acc) (0, 0)
  if 2 ≤ best.2 then
    String.intercalate ":" ((segs.take best.1).map segHex) ++ "::" ++
      String.intercalate ":" ((segs.drop (best.1 + best.2)).map segHex)
  else
    String.intercalate ":" (segs.map segHex)

/-- Models `Url::host_str()`: domains verbatim, IPv4 in dotted-decimal, and
IPv6 in brackets. -/
def hostStr : UrlHost → String
  | .domain name => name
  | .ipv4 a b c d =>
      toString a ++ "." ++ toString b ++ "." ++ toString c ++ "." ++ toString d
  | .ipv6 s0 s1 s2 s3 s4 s5 s6 s7 =>
      "[" ++ ipv6Body [s0, s1, s2, s3, s4, s5, s6, s7] ++ "]"

/-- Models `host_str().parse::<IpAddr>()` in `validate_url`. Only IPv4 hosts
parse back: the url crate serializes IPv6 hosts inside brackets (for example
the loopback as the seven-character string bracket-colon-colon-one-bracket),
which `IpAddr::from_str` rejects, and a domain host never reads as an IP
literal because numeric hosts are classified as IPv4 at URL parse time. -/
def hostStrParseIp : UrlHost → Option IpAddr
  | .ipv4 a b c d => some (.v4 a b c d)
  | _ => none

/-- Embeds the `is_localhost` test of `validate_url`'s http branch. -/
def host_is_localhost (h : UrlHost) : Bool :=
  let host := hostStr h
  host == "localhost" || host == "127.0.0.1" || host == "[::1]" ||
    host.startsWith "127." || host.startsWith "localhost:"

/-- Blocked SMTP/IMAP/POP3-family ports from `validate_url`. -/
def BLOCKED_PORTS : List Nat := [0, 25, 110, 143, 465, 587, 993, 995]

/-- Embeds the final port check of `validate_url`. -/
def checkBlockedPort (url : ParsedUrl) : Except String ParsedUrl :=
  match url.port with
  | some p =>
      if BLOCKED_PORTS.contains p then .error "Port is not allowed" else .ok url
  | none => .ok url

/-- Embeds the host-presence and production internal-IP checks of
`validate_url`, followed by the port check. -/
def checkInternalIp (is_dev : Bool) (url : ParsedUrl) : Except String ParsedUrl :=
  match url.host with
  | none => .error "URL must have a host"
  | some h =>
    if !is_dev then
      match hostStrParseIp h with
      | some ip =>
        if is_internal_ip ip then
          .error "Access to internal IP address is not allowed in production mode"
        else
          checkBlockedPort url
      | none => checkBlockedPort url
    else
      checkBlockedPort url

/-- Embeds `validate_url` from `sync.rs` over a parsed URL, with the
development-mode flag (`is_dev_mode()`) passed explicitly. -/
def validate_url (is_dev : Bool) (url : ParsedUrl) : Except String ParsedUrl :=
  if url.scheme = "https" then
    checkInternalIp is_dev url
  else if url.scheme = "http" then
    match url.host with
    | none => .error "URL must have a host"
    | some h =>
      if !is_dev && !(host_is_localhost h) then
        .error "HTTP URLs are only allowed for localhost in production mode"
      else
        checkInternalIp is_dev url
  else
    .error "Invalid URL scheme: only http and https are allowed"

/-! ## Theorems -/

/-- C2: `requires_confirmation` is a total pure function of the
(TrustLevel, DangerLevel) pair: AskAlways always requires confirmation,
FullTrust never does, and AskDangerous requires confirmation exactly when the
danger level is at least Dangerous — which of the three levels means exactly
Dangerous, covering all 9 cells of the truth table. -/
theorem requires_confirmation_matrix :
    (∀ d, TrustLevel.askAlways.requires_confirmation d = true) ∧
    (∀ d, TrustLevel.fullTrust.requires_confirmation d = false) ∧
    (∀ d, TrustLevel.askDangerous.requires_confirmation d = true ↔
      DangerLevel.dangerous.toNat ≤ d.toNat) ∧
    TrustLevel.askDangerous.requires_confirmation .dangerous = true ∧
    TrustLevel.askDangerous.requires_confirmation .safe = false ∧
    TrustLevel.askDangerous.requires_confirmation .moderate = false := by
  refine ⟨fun d => rfl, fun d => rfl, fun d => ?_, rfl, rfl, rfl⟩
  cases d <;> simp [TrustLevel.requires_confirmation, DangerLevel.toNat]

/-- C3: `classify_command_danger` is total over the command space and returns
Safe for Screenshot, BrowserGetUrl and Wait; Moderate for Click and
BrowserNavigate; Dangerous for Type exactly when the text is longer than 100
bytes or contains a newline, else Moderate; Dangerous for Hotkey exactly when
a control/command modifier is combined with a system-sensitive key
(case-insensitively q, w, delete, backspace or escape), else Moderate; and
Dangerous for every Custom command. -/
theorem classify_command_danger_spec :
    (∀ p, classify_command_danger (.screenshot p) = .safe) ∧
    (∀ b, classify_command_danger (.browserGetUrl b) = .safe) ∧
    (∀ ms, classify_command_danger (.wait ms) = .safe) ∧
    (∀ x y b, classify_command_danger (.click x y b) = .moderate) ∧
    (∀ b u, classify_command_danger (.browserNavigate b u) = .moderate) ∧
    (∀ t, classify_command_danger (.type t) =
      if 100 < t.utf8ByteSize ∨ t.contains '\n' then .dangerous else .moderate) ∧
    (∀ t, classify_command_danger (.type t) = .dangerous ↔
      (100 < t.utf8ByteSize ∨ t.contains '\n' = true)) ∧
    (∀ mods k, classify_command_danger (.hotkey mods k) =
      if is_dangerous_hotkey mods k then .dangerous else .moderate) ∧
    (∀ mods k, is_dangerous_hotkey mods k = true ↔
      ((∃ m ∈ mods, m ∈ ctrlCmdModifiers) ∧ rustToLowercase k ∈ dangerousKeys)) ∧
    (∀ n ps, classify_command_danger (.custom n ps) = .dangerous) := by
  refine ⟨fun _ => rfl, fun _ => rfl, fun _ => rfl, fun _ _ _ => rfl, fun _ _ => rfl,
    fun t => rfl, fun t => ?_, fun mods k => rfl, fun mods k => ?_, fun _ _ => rfl⟩
  · rw [classify_command_danger]
    split <;> rename_i h <;> simp_all
  · simp only [is_dangerous_hotkey, ctrlCmdModifiers, dangerousKeys, List.any_eq_true,
      Bool.or_eq_true, beq_iff_eq, List.mem_cons, List.not_mem_nil, or_false]
    split
    · rename_i h
      simp only [Bool.or_eq_true, beq_iff_eq]
      obtain ⟨m, hm, hOr⟩ := h
      constructor
      · intro hk
        exact ⟨⟨m, hm, by tauto⟩, by tauto⟩
      · intro hk
        tauto
    · rename_i h
      simp only [Bool.false_eq_true, false_iff]
      intro hk
      apply h
      obtain ⟨⟨m, hm, hOr⟩, _⟩ := hk
      exact ⟨m, hm, by tauto⟩

/-- C10: `TrustLevel` string serialization round-trips
(`from_str (to_str l) = some l` for each level), `from_str` is
case-insensitive (it depends only on the lowercased input), and it returns
`none` exactly for strings whose lowercasing is outside the alias set. -/
theorem trust_from_str_spec :
    (∀ l, TrustLevel.from_str (TrustLevel.to_str l) = some l) ∧
    (∀ s₁ s₂ : String, rustToLowercase s₁ = rustToLowercase s₂ →
      TrustLevel.from_str s₁ = TrustLevel.from_str s₂) ∧
    (∀ s : String, TrustLevel.from_str s = none ↔ rustToLowercase s ∉ trustAliases) ∧
    TrustLevel.from_str "ALWAYS" = some .askAlways ∧
    TrustLevel.from_str "Full_Trust" = some .fullTrust ∧
    TrustLevel.from_str "bogus" = none := by
  refine ⟨?_, ?_, ?_, by decide, by decide, by decide⟩
  · intro l; cases l <;> decide
  · intro s₁ s₂ h
    unfold TrustLevel.from_str
    rw [h]
  · intro s
    unfold TrustLevel.from_str trustFromLower trustAliases
    generalize rustToLowercase s = t
    split_ifs with h1 h2 h3 <;> simp_all <;> tauto

/-- Witness for C10: the case-insensitivity conjunct applied at the concrete
pair of spellings of the alias. -/
theorem trust_from_str_spec_witness :
    TrustLevel.from_str "AlWaYs" = TrustLevel.from_str "ALWAYS" :=
  trust_from_str_spec.2.1 "AlWaYs" "ALWAYS" (by decide)

/-- C1: `sanitize_command` returns an error exactly when the command is empty
or whitespace-only, contains one of the separator metacharacters (semicolon,
ampersand, pipe, backtick, dollar), contains the command-substitution or
directory-traversal substrings, or matches the redirect-to-ampersand
pattern; commands with none of these are accepted, such as the two
concrete examples. -/
theorem sanitize_command_spec :
    (∀ cmd : String, sanitizeOk (sanitize_command cmd) = false ↔
      (cmd.data.all rustIsWhitespace = true ∨
       (∃ c ∈ cmd.data, c ∈ dangerousChars) ∨
       "$(".data <:+: cmd.data ∨
       "../".data <:+: cmd.data ∨
       hasRedirAmp cmd.data = true)) ∧
    sanitizeOk (sanitize_command "ls") = true ∧
    sanitizeOk (sanitize_command "echo hello") = true ∧
    sanitizeOk (sanitize_command "") = false ∧
    sanitizeOk (sanitize_command "   ") = false ∧
    sanitizeOk (sanitize_command "ls; rm -rf /") = false ∧
    sanitizeOk (sanitize_command "ls | grep x") = false ∧
    sanitizeOk (sanitize_command "echo `id`") = false ∧
    sanitizeOk (sanitize_command "echo $(whoami)") = false ∧
    sanitizeOk (sanitize_command "cat ../../etc/passwd") = false := by
  refine ⟨?_, by decide, by decide, by decide, by decide, by decide, by decide,
    by decide, by decide, by decide⟩
  intro cmd
  unfold sanitize_command
  split_ifs with h1 h2 h3 h4 h5 <;>
    simp_all [sanitizeOk, List.any_eq_true]

/-- Filtering with the negated predicate keeps exactly the complement. -/
theorem filter_not_length_add (p : α → Bool) :
    ∀ l : List α, (l.filter fun a => !p a).length + (l.filter p).length = l.length := by
  intro l
  induction l with
  | nil => rfl
  | cons a l ih => cases h : p a <;> simp [List.filter_cons, h] <;> omega

/-- C8 (failing input for the production SSRF check): `validate_url` accepts
an https URL whose host is the IPv6 loopback address in production mode, even
though `is_internal_ip` classifies that address as internal, because the
bracketed serialization of an IPv6 host does not parse back as an `IpAddr`,
so the internal-IP rejection never fires for IPv6 literals; the same check
does fire for the IPv4 loopback. -/
theorem validate_url_ipv6_loopback_accepted :
    validate_url false ⟨"https", some (.ipv6 0 0 0 0 0 0 0 1), none⟩ =
      .ok ⟨"https", some (.ipv6 0 0 0 0 0 0 0 1), none⟩ ∧
    is_internal_ip (.v6 0 0 0 0 0 0 0 1) = true ∧
    hostStrParseIp (.ipv6 0 0 0 0 0 0 0 1) = none ∧
    hostStr (.ipv6 0 0 0 0 0 0 0 1) = "[::1]" ∧
    validate_url false ⟨"https", some (.ipv4 127 0 0 1), none⟩ =
      .error "Access to internal IP address is not allowed in production mode" := by
  refine ⟨rfl, rfl, rfl, by decide, rfl⟩

/-- C5: after a `sync_events` call returns an acknowledgment list, both the
periodic path and `manual_sync` retain exactly the events whose id is not in
the acknowledged set; when the buffer ids are distinct and the server
acknowledges a duplicate-free subset of them, exactly N minus the subset size
events remain; and when `sync_events` returns an error, neither path removes
anything. -/
theorem sync_ack_retirement :
    ∀ (buffer : List Event) (net : Nat → ReqOutcome) (acked : List String) (msg : String),
    ((sync_events buffer net).result = .ok acked →
      syncCycle buffer net = buffer.filter (fun e => decide (e.id ∉ acked)) ∧
      (manual_sync buffer net).1 = buffer.filter (fun e => decide (e.id ∉ acked))) ∧
    ((sync_events buffer net).result = .error msg →
      syncCycle buffer net = buffer ∧ (manual_sync buffer net).1 = buffer) ∧
    ((sync_events buffer net).result = .ok acked →
      (buffer.map fun e => e.id).Nodup → acked.Nodup →
      (∀ a ∈ acked, a ∈ buffer.map fun e => e.id) →
      (syncCycle buffer net).length = buffer.length - acked.length) := by
  intro buffer net acked msg
  have hfe : ∀ buf : List Event, applyAcks buf acked =
      buf.filter fun e => decide (e.id ∉ acked) := by
    intro buf
    unfold applyAcks
    refine List.filter_congr fun e _ => ?_
    simp [decide_not]
  have hok : (sync_events buffer net).result = .ok acked →
      syncCycle buffer net = buffer.filter (fun e => decide (e.id ∉ acked)) ∧
      (manual_sync buffer net).1 = buffer.filter (fun e => decide (e.id ∉ acked)) := by
    intro hres
    unfold syncCycle manual_sync
    cases hb : buffer.isEmpty
    · simp [hb, hres, hfe]
    · rw [List.isEmpty_iff] at hb
      subst hb
      simp
  refine ⟨hok, ?_, ?_⟩
  · intro hres
    unfold syncCycle manual_sync
    cases hb : buffer.isEmpty
    · simp [hb, hres]
    · rw [List.isEmpty_iff] at hb
      subst hb
      simp
  · intro hres hnodup hackednodup hsub
    rw [(hok hres).1]
    have hpt : ∀ e : Event, (decide (e.id ∉ acked)) = !(acked.contains e.id) := by
      intro e
      simp [decide_not]
    rw [List.filter_congr fun e _ => hpt e]
    have hsplit := filter_not_length_add (fun e : Event => acked.contains e.id) buffer
    have hA : ((buffer.filter fun e : Event => acked.contains e.id).length
        = acked.length) := by
      have hmapeq : (buffer.map fun e => e.id).filter (fun x => acked.contains x)
          = (buffer.filter fun e : Event => acked.contains e.id).map fun e => e.id := by
        rw [List.filter_map]
        rfl
      have hperm : List.Perm
          ((buffer.map fun e => e.id).filter fun x => acked.contains x) acked := by
        rw [List.perm_ext_iff_of_nodup (hnodup.filter _) hackednodup]
        intro a
        simp only [List.mem_filter, List.elem_eq_mem, decide_eq_true_eq]
        exact ⟨fun h => h.2, fun h => ⟨hsub a h, h⟩⟩
      have := hperm.length_eq
      rw [hmapeq] at this
      simpa using this
    omega

/-- Arithmetic characterization of the heap-drain relation: `a` pops no later
than `b` exactly when `a` has strictly higher priority, or equal priority and
an earlier-or-equal creation time. -/
theorem taskPopsFirst_iff (a b : AutomationTask) :
    taskPopsFirst a b ↔ (b.priority.toNat < a.priority.toNat ∨
      (a.priority.toNat = b.priority.toNat ∧ a.created_at ≤ b.created_at)) := by
  unfold taskPopsFirst cmpTask
  rcases h : compare a.priority.toNat b.priority.toNat with hc | hc | hc
  · rw [Nat.compare_eq_lt] at h
    simp only []
    constructor
    · intro hcon
      exact absurd rfl hcon
    · intro hd
      omega
  · rw [Nat.compare_eq_eq] at h
    simp only []
    rcases Nat.lt_or_ge b.created_at a.created_at with hcr | hcr
    · rw [show compare b.created_at a.created_at = .lt from Nat.compare_eq_lt.2 hcr]
      constructor
      · intro hcon
        exact absurd rfl hcon
      · intro hd
        omega
    · have : compare b.created_at a.created_at ≠ .lt := by
        simp only [ne_eq, Nat.compare_eq_lt]
        omega
      constructor
      · intro _
        omega
      · intro _
        exact this
  · rw [Nat.compare_eq_gt] at h
    simp only []
    constructor
    · intro _
      omega
    · intro _
      intro hcon
      cases hcon

instance : IsTotal AutomationTask taskPopsFirst := by
  constructor
  intro a b
  rw [taskPopsFirst_iff, taskPopsFirst_iff]
  omega

instance : IsTrans AutomationTask taskPopsFirst := by
  constructor
  intro a b c hab hbc
  rw [taskPopsFirst_iff] at hab hbc ⊢
  omega

instance : IsAntisymm AutomationTask (fun a b => a.created_at < b.created_at) := by
  constructor
  intro a b h1 h2
  omega

/-- C4: draining the priority heap yields a permutation of the submitted
tasks whose priorities are non-increasing, and — whenever creation times
strictly increase along the submission order — the tasks of each fixed
priority appear in submission order (ascending `created_at`, FIFO within the
priority band). -/
theorem priority_queue_order :
    ∀ tasks : List AutomationTask,
    List.Perm (dequeueAll tasks) tasks ∧
    (dequeueAll tasks).Pairwise (fun a b => b.priority.toNat ≤ a.priority.toNat) ∧
    (tasks.Pairwise (fun a b => a.created_at < b.created_at) →
      ∀ p, (dequeueAll tasks).filter (fun t => decide (t.priority = p)) =
        tasks.filter (fun t => decide (t.priority = p))) := by
  intro tasks
  have hperm : List.Perm (dequeueAll tasks) tasks := List.perm_insertionSort _ _
  have hsorted : (dequeueAll tasks).Pairwise taskPopsFirst :=
    List.sorted_insertionSort _ _
  refine ⟨hperm, ?_, ?_⟩
  · refine hsorted.imp fun hab => ?_
    rw [taskPopsFirst_iff] at hab
    omega
  · intro hstrict p
    have hpf : List.Perm
        ((dequeueAll tasks).filter fun t => decide (t.priority = p))
        (tasks.filter fun t => decide (t.priority = p)) := hperm.filter _
    have hin : (tasks.filter fun t => decide (t.priority = p)).Pairwise
        (fun a b => a.created_at < b.created_at) := hstrict.filter _
    have houtPops : ((dequeueAll tasks).filter fun t => decide (t.priority = p)).Pairwise
        taskPopsFirst := hsorted.filter _
    have houtLe : ((dequeueAll tasks).filter fun t => decide (t.priority = p)).Pairwise
        (fun a b => a.created_at ≤ b.created_at) := by
      refine houtPops.imp_of_mem ?_
      intro a b ha hb hab
      rw [List.mem_filter] at ha hb
      have ha2 : a.priority = p := of_decide_eq_true ha.2
      have hb2 : b.priority = p := of_decide_eq_true hb.2
      rw [taskPopsFirst_iff] at hab
      have hpp : a.priority.toNat = b.priority.toNat := by rw [ha2, hb2]
      omega
    have hmapin : ((tasks.filter fun t => decide (t.priority = p)).map
        fun t => t.created_at).Pairwise (fun x y : Nat => x < y) :=
      hin.map _ fun _ _ h => h
    have hmapout : (((dequeueAll tasks).filter fun t => decide (t.priority = p)).map
        fun t => t.created_at).Pairwise (fun x y : Nat => x ≠ y) := by
      have hpermmap := hpf.map fun t => t.created_at
      refine (hpermmap.pairwise_iff fun h => h.symm).2 ?_
      exact hmapin.imp fun h => Nat.ne_of_lt h
    have hneq : ((dequeueAll tasks).filter fun t => decide (t.priority = p)).Pairwise
        (fun a b => a.created_at ≠ b.created_at) := List.pairwise_map.1 hmapout
    have houtLt : ((dequeueAll tasks).filter fun t => decide (t.priority = p)).Pairwise
        (fun a b => a.created_at < b.created_at) :=
      houtLe.imp₂ (fun _ _ h1 h2 => lt_of_le_of_ne h1 h2) hneq
    exact List.eq_of_perm_of_sorted hpf houtLt hin

/-- Sample task for concrete checks. -/
def sampleTask (i : String) (p : TaskPriority) (t : Nat) : AutomationTask :=
  ⟨i, p, .wait 100, t⟩

/-- Sample event for concrete checks. -/
def sampleEvent (i : String) : Event :=
  ⟨i, "dev", "app_focus", 0, none, none, none, "", none⟩

/-- Witness for C4: the FIFO-within-priority conjunct applied to the concrete
submission Low, High, Normal with strictly increasing creation times, plus the
drain order computed on that submission. -/
theorem priority_queue_order_witness :
    ((dequeueAll [sampleTask "a" .low 0, sampleTask "b" .high 1,
        sampleTask "c" .normal 2]).filter fun t => decide (t.priority = .high)) =
      (([sampleTask "a" .low 0, sampleTask "b" .high 1,
        sampleTask "c" .normal 2]).filter fun t => decide (t.priority = .high)) ∧
    (dequeueAll [sampleTask "a" .low 0, sampleTask "b" .high 1,
        sampleTask "c" .normal 2]).map (fun t => t.id) = ["b", "c", "a"] :=
  ⟨(priority_queue_order _).2.2 (by decide) .high, by decide⟩

/-- C6: when the HTTP POST yields a success status whose body cannot be
parsed as the acknowledgment structure, `sync_events` returns the ids of all
submitted events, in a single attempt, and the subsequent buffer update
retires every event of the batch. -/
theorem sync_unparsable_acks_all :
    ∀ (events : List Event) (net : Nat → ReqOutcome) (s : Nat),
    net 0 = .response s none → statusIsSuccess s = true →
    (sync_events events net).result = .ok (events.map fun e => e.id) ∧
    (sync_events events net).attempts = 1 ∧
    syncCycle events net = [] := by
  intro events net s h0 hs
  have htrace : sync_events events net = ⟨.ok (events.map fun e => e.id), 1, []⟩ := by
    unfold sync_events
    simp [syncGo, h0, hs]
  have happly : applyAcks events (events.map fun e => e.id) = [] := by
    unfold applyAcks
    rw [List.filter_eq_nil_iff]
    intro e he
    simp [List.mem_map_of_mem _ he]
  refine ⟨by rw [htrace], by rw [htrace], ?_⟩
  cases hb : events.isEmpty
  · simp [syncCycle, hb, htrace, happly]
  · rw [List.isEmpty_iff] at hb
    subst hb
    rfl

/-- Witness for C6: a two-event batch against a network that always answers
status 200 with an unparsable body. -/
theorem sync_unparsable_acks_all_witness :
    (sync_events [sampleEvent "e1", sampleEvent "e2"]
        fun _ => .response 200 none).result = .ok ["e1", "e2"] ∧
    syncCycle [sampleEvent "e1", sampleEvent "e2"]
        (fun _ => .response 200 none) = [] := by
  have h := sync_unparsable_acks_all [sampleEvent "e1", sampleEvent "e2"]
    (fun _ => .response 200 none) 200 rfl rfl
  exact ⟨h.1, h.2.2⟩

/-- Witness for C5: a three-event buffer whose sync acknowledges the first
and third event, and a buffer against a server that answers 400. -/
theorem sync_ack_retirement_witness :
    syncCycle [sampleEvent "e1", sampleEvent "e2", sampleEvent "e3"]
        (fun _ => .response 200 (some ["e1", "e3"])) =
      ([sampleEvent "e1", sampleEvent "e2", sampleEvent "e3"].filter
        fun e => decide (e.id ∉ (["e1", "e3"] : List String))) ∧
    (syncCycle [sampleEvent "e1", sampleEvent "e2", sampleEvent "e3"]
        (fun _ => .response 200 (some ["e1", "e3"]))).length = 3 - 2 ∧
    syncCycle [sampleEvent "e1", sampleEvent "e2"] (fun _ => .response 400 none)
      = [sampleEvent "e1", sampleEvent "e2"] := by
  refine ⟨?_, ?_, ?_⟩
  · exact ((sync_ack_retirement [sampleEvent "e1", sampleEvent "e2", sampleEvent "e3"]
      (fun _ => .response 200 (some ["e1", "e3"])) ["e1", "e3"] "").1 rfl).1
  · exact (sync_ack_retirement [sampleEvent "e1", sampleEvent "e2", sampleEvent "e3"]
      (fun _ => .response 200 (some ["e1", "e3"])) ["e1", "e3"] "").2.2 rfl
      (by decide) (by decide) (by decide)
  · exact ((sync_ack_retirement [sampleEvent "e1", sampleEvent "e2"]
      (fun _ => .response 400 none) []
      ("Server returned status: " ++ toString 400)).2.1 rfl).1

/-- Backoff delays of a retry-loop suffix started at a positive attempt
index: a window of the doubling backoff schedule, one entry per attempt
made by the suffix. -/
theorem syncGo_delays_drop (events : List Event) (net : Nat → ReqOutcome) :
    ∀ fuel attempt, 1 ≤ attempt → attempt + fuel ≤ 4 →
    (syncGo events net fuel attempt).delays =
      (([1000, 2000, 4000] : List Nat).drop (attempt - 1)).take
        (syncGo events net fuel attempt).attempts := by
  intro fuel
  induction fuel with
  | zero =>
    intro attempt h1 h2
    simp [syncGo]
  | succ fuel ih =>
    intro attempt h1 h2
    have hrec := ih (attempt + 1) (by omega) (by omega)
    have h0 : 0 < attempt := by omega
    simp only [syncGo]
    rcases net attempt with ⟨status, parsed⟩ | e
    · by_cases hs1 : statusIsSuccess status = true
      · rcases parsed with _ | ids <;>
          · simp [hs1, h0]
            rcases (by omega : attempt = 1 ∨ attempt = 2 ∨ attempt = 3) with ha | ha | ha <;>
              subst ha <;> decide
      · by_cases hs2 : (statusIsServerError status && decide (attempt < MAX_RETRIES)) = true
        · have hs2c := hs2
          simp only [Bool.and_eq_true, decide_eq_true_eq, MAX_RETRIES] at hs2c
          have hlt : attempt < 3 := hs2c.2
          simp [hs1, hs2, h0]
          rw [hrec]
          rcases (by omega : attempt = 1 ∨ attempt = 2) with ha | ha <;> subst ha <;>
            norm_num [INITIAL_RETRY_DELAY_MS, List.take_succ_cons]
        · simp [hs1, hs2, h0]
          rcases (by omega : attempt = 1 ∨ attempt = 2 ∨ attempt = 3) with ha | ha | ha <;>
            subst ha <;> decide
    · by_cases hs1 : (is_transient_error e && decide (attempt < MAX_RETRIES)) = true
      · have hs1c := hs1
        simp only [Bool.and_eq_true, decide_eq_true_eq, MAX_RETRIES] at hs1c
        have hlt : attempt < 3 := hs1c.2
        simp [hs1, h0]
        rw [hrec]
        rcases (by omega : attempt = 1 ∨ attempt = 2) with ha | ha <;> subst ha <;>
          norm_num [INITIAL_RETRY_DELAY_MS, List.take_succ_cons]
      · simp [hs1, h0]
        rcases (by omega : attempt = 1 ∨ attempt = 2 ∨ attempt = 3) with ha | ha | ha <;>
          subst ha <;> decide

/-- The retry loop makes at most one attempt per unit of fuel. -/
theorem syncGo_attempts_le (events : List Event) (net : Nat → ReqOutcome) :
    ∀ fuel attempt, (syncGo events net fuel attempt).attempts ≤ fuel := by
  intro fuel
  induction fuel with
  | zero =>
    intro attempt
    simp [syncGo]
  | succ fuel ih =>
    intro attempt
    have hrec := ih (attempt + 1)
    simp only [syncGo]
    rcases net attempt with ⟨status, parsed⟩ | e
    · by_cases h1 : statusIsSuccess status = true
      · rcases parsed with _ | ids <;> simp [h1]
      · by_cases h2 : (statusIsServerError status && decide (attempt < MAX_RETRIES)) = true
        · simp [h1, h2]
          omega
        · simp [h1, h2]
    · by_cases h1 : (is_transient_error e && decide (attempt < MAX_RETRIES)) = true
      · simp [h1]
        omega
      · simp [h1]

/-- With fuel left, the retry loop makes at least one attempt. -/
theorem syncGo_attempts_pos (events : List Event) (net : Nat → ReqOutcome) :
    ∀ fuel attempt, 1 ≤ fuel → 1 ≤ (syncGo events net fuel attempt).attempts := by
  intro fuel
  match fuel with
  | 0 => omega
  | fuel + 1 =>
    intro attempt _
    simp only [syncGo]
    rcases net attempt with ⟨status, parsed⟩ | e
    · by_cases h1 : statusIsSuccess status = true
      · rcases parsed with _ | ids <;> simp [h1]
      · by_cases h2 : (statusIsServerError status && decide (attempt < MAX_RETRIES)) = true
        · simp [h1, h2]
        · simp [h1, h2]
    · by_cases h1 : (is_transient_error e && decide (attempt < MAX_RETRIES)) = true <;>
        simp [h1]


/-- Single unfolding step of the retry loop. -/
theorem syncGo_one_step (events : List Event) (net : Nat → ReqOutcome) (fuel attempt : Nat) :
    syncGo events net (fuel + 1) attempt =
      (let d : List Nat :=
        if 0 < attempt then [INITIAL_RETRY_DELAY_MS * 2 ^ (attempt - 1)] else []
       match net attempt with
       | .response status parsed =>
         if statusIsSuccess status then
           match parsed with
           | some ids => ⟨.ok ids, 1, d⟩
           | none => ⟨.ok (events.map (·.id)), 1, d⟩
         else if statusIsServerError status && decide (attempt < MAX_RETRIES) then
           let t := syncGo events net fuel (attempt + 1)
           ⟨t.result, t.attempts + 1, d ++ t.delays⟩
         else
           ⟨.error ("Server returned status: " ++ toString status), 1, d⟩
       | .failure e =>
         if is_transient_error e && decide (attempt < MAX_RETRIES) then
           let t := syncGo events net fuel (attempt + 1)
           ⟨t.result, t.attempts + 1, d ++ t.delays⟩
         else
           ⟨.error "request failed", 1, d⟩) := rfl

/-- The delays slept by `sync_events` are exactly the first
attempts-minus-one entries of the doubling backoff schedule. -/
theorem sync_events_delays (events : List Event) (net : Nat → ReqOutcome) :
    (sync_events events net).delays =
      ([1000, 2000, 4000] : List Nat).take ((sync_events events net).attempts - 1) := by
  rw [show sync_events events net = syncGo events net (MAX_RETRIES + 1) 0 from rfl,
    syncGo_one_step]
  rcases net 0 with ⟨status, parsed⟩ | e
  · by_cases h1 : statusIsSuccess status = true
    · rcases parsed with _ | ids <;> simp [h1]
    · by_cases h2 : (statusIsServerError status && decide (0 < MAX_RETRIES)) = true
      · have hd := syncGo_delays_drop events net MAX_RETRIES (0 + 1) (by omega)
          (by rw [MAX_RETRIES])
        simp only [h1, h2, if_true, if_false, Bool.false_eq_true]
        simp only [show ¬(0 < 0) from by omega, if_neg, Nat.zero_add] at hd ⊢
        simp [hd]
      · simp [h1, h2]
  · by_cases h1 : (is_transient_error e && decide (0 < MAX_RETRIES)) = true
    · have hd := syncGo_delays_drop events net MAX_RETRIES (0 + 1) (by omega)
        (by rw [MAX_RETRIES])
      simp only [h1, if_true]
      simp only [Nat.zero_add] at hd
      simp [hd]
    · simp [h1]

/-- Every prefix of the backoff schedule is strictly increasing. -/
theorem backoff_take_pairwise :
    ∀ n, ((([1000, 2000, 4000] : List Nat)).take n).Pairwise (fun a b => a < b)
  | 0 => by decide
  | 1 => by decide
  | 2 => by decide
  | n + 3 => by
    rw [List.take_of_length_le (by simp)]
    decide

/-- C7 (counterexample to the claimed attempt bound): against a network that
times out on every attempt, `sync_events` makes 4 HTTP attempts — one initial
attempt plus MAX_RETRIES retries — exceeding the claimed bound of 3 attempts,
with all three backoff delays slept. -/
theorem sync_retry_attempts_counterexample :
    (sync_events [] fun _ => .failure ⟨true, false, none⟩).attempts = 4 ∧
    ¬((sync_events [] fun _ => .failure ⟨true, false, none⟩).attempts ≤ 3) ∧
    (sync_events [] fun _ => .failure ⟨true, false, none⟩).delays =
      [1000, 2000, 4000] := by
  refine ⟨rfl, by decide, rfl⟩

/-- C7 (amended): `sync_events` makes at most MAX_RETRIES + 1 = 4 attempts
(an initial attempt plus up to 3 retries); the delays slept are the leading
entries of the doubling schedule 1000, 2000, 4000 ms — one per retry, hence
strictly increasing; a non-transient failure or a non-5xx error status makes
the call return an error after exactly one attempt; a transient outcome
(timeout or connection failure, or a 5xx status) triggers at least a second
attempt. -/
theorem sync_retry_policy :
    ∀ (events : List Event) (net : Nat → ReqOutcome),
    (sync_events events net).attempts ≤ MAX_RETRIES + 1 ∧
    (sync_events events net).delays =
      ([1000, 2000, 4000] : List Nat).take ((sync_events events net).attempts - 1) ∧
    (sync_events events net).delays.Pairwise (fun a b => a < b) ∧
    (∀ e, net 0 = .failure e → is_transient_error e = false →
      (sync_events events net).attempts = 1 ∧
      (sync_events events net).result = .error "request failed") ∧
    (∀ s p, net 0 = .response s p → statusIsSuccess s = false →
      statusIsServerError s = false →
      (sync_events events net).attempts = 1 ∧
      (sync_events events net).result =
        .error ("Server returned status: " ++ toString s)) ∧
    (∀ e, net 0 = .failure e → is_transient_error e = true →
      2 ≤ (sync_events events net).attempts) ∧
    (∀ s p, net 0 = .response s p → statusIsSuccess s = false →
      statusIsServerError s = true →
      2 ≤ (sync_events events net).attempts) := by
  intro events net
  have hstep : sync_events events net = syncGo events net (MAX_RETRIES + 1) 0 := rfl
  refine ⟨syncGo_attempts_le events net _ 0, sync_events_delays events net, ?_,
    ?_, ?_, ?_, ?_⟩
  · rw [sync_events_delays]
    exact backoff_take_pairwise _
  · intro e h0 htr
    rw [hstep, syncGo_one_step]
    simp [h0, htr]
  · intro s p h0 hs hserr
    rw [hstep, syncGo_one_step]
    rcases p with _ | ids <;> simp [h0, hs, hserr]
  · intro e h0 htr
    rw [hstep, syncGo_one_step]
    have hpos := syncGo_attempts_pos events net MAX_RETRIES 1
      (by rw [MAX_RETRIES]; omega)
    simp only [MAX_RETRIES] at hpos
    simp [h0, htr, MAX_RETRIES]
    omega
  · intro s p h0 hs hserr
    rw [hstep, syncGo_one_step]
    have hpos := syncGo_attempts_pos events net MAX_RETRIES 1
      (by rw [MAX_RETRIES]; omega)
    simp only [MAX_RETRIES] at hpos
    rcases p with _ | ids <;> simp [h0, hs, hserr, MAX_RETRIES] <;> omega

/-- Witness for C7: the abort and retry conjuncts applied at concrete
networks — a non-transient transport failure, a 404 response, an
always-timeout network, and an always-503 network. -/
theorem sync_retry_policy_witness :
    ((sync_events [] fun _ => .failure ⟨false, false, none⟩).attempts = 1 ∧
      (sync_events [] fun _ => .failure ⟨false, false, none⟩).result =
        .error "request failed") ∧
    ((sync_events [] fun _ => .response 404 none).attempts = 1 ∧
      (sync_events [] fun _ => .response 404 none).result =
        .error ("Server returned status: " ++ toString 404)) ∧
    2 ≤ (sync_events [] fun _ => .failure ⟨true, false, none⟩).attempts ∧
    2 ≤ (sync_events [] fun _ => .response 503 none).attempts := by
  refine ⟨?_, ?_, ?_, ?_⟩
  · exact (sync_retry_policy [] _).2.2.2.1 ⟨false, false, none⟩ rfl rfl
  · exact (sync_retry_policy [] _).2.2.2.2.1 404 none rfl rfl rfl
  · exact (sync_retry_policy [] _).2.2.2.2.2.1 ⟨true, false, none⟩ rfl rfl
  · exact (sync_retry_policy [] _).2.2.2.2.2.2 503 none rfl rfl rfl

/-- The capacity warning fires exactly when the pre-push occupancy is at the
high-water mark and the one-shot flag is clear. -/
theorem insertEvent_warn_iff (s : CollectorState) (e : Event) :
    (insertEvent s e).2 = true ↔
      (BUFFER_WARNING_THRESHOLD ≤ s.buffer.length ∧ s.warned = false) := by
  simp only [insertEvent]
  simp

/-- Inserting never shrinks the buffer. -/
theorem insertEvent_length_mono (s : CollectorState) (e : Event) :
    s.buffer.length ≤ (insertEvent s e).1.buffer.length := by
  simp only [insertEvent]
  by_cases hm : MAX_BUFFER_SIZE ≤ s.buffer.length
  · rw [if_pos hm]
    simp only [List.length_append, List.length_drop, List.length_singleton]
    simp only [MAX_BUFFER_SIZE] at hm
    omega
  · rw [if_neg hm]
    simp only [List.length_append, List.length_singleton]
    omega

/-- Once the warning has fired, the flag and the occupancy stay high, so the
next insert does not warn again. -/
theorem insertEvent_warned_stays (s : CollectorState) (e : Event) :
    s.warned = true → BUFFER_WARNING_THRESHOLD ≤ s.buffer.length →
    (insertEvent s e).1.warned = true ∧
    BUFFER_WARNING_THRESHOLD ≤ (insertEvent s e).1.buffer.length ∧
    (insertEvent s e).2 = false := by
  intro hw hlen
  have hmono := insertEvent_length_mono s e
  refine ⟨?_, le_trans hlen hmono, ?_⟩
  · simp only [insertEvent, hw]
    have hnl : ¬(s.buffer.length < BUFFER_WARNING_THRESHOLD / 2) := by
      simp only [BUFFER_WARNING_THRESHOLD] at hlen ⊢
      omega
    simp [hnl]
  · cases hfb : (insertEvent s e).2
    · rfl
    · have h2 := (insertEvent_warn_iff s e).1 hfb
      rw [hw] at h2
      simp at h2

/-- The state reached by a warning insert keeps the flag set above the
high-water mark. -/
theorem insertEvent_post_of_warn (s : CollectorState) (e : Event)
    (h : (insertEvent s e).2 = true) :
    (insertEvent s e).1.warned = true ∧
    BUFFER_WARNING_THRESHOLD ≤ (insertEvent s e).1.buffer.length := by
  rw [insertEvent_warn_iff] at h
  have hmono := insertEvent_length_mono s e
  refine ⟨?_, le_trans h.1 hmono⟩
  simp only [insertEvent, h.2]
  have hnl : ¬(s.buffer.length < BUFFER_WARNING_THRESHOLD / 2) := by
    have := h.1
    simp only [BUFFER_WARNING_THRESHOLD] at this ⊢
    omega
  have hth := h.1
  simp [hnl, hth]

/-- After the flag is set above the high-water mark, a run of inserts logs no
further capacity warning. -/
theorem runInserts_zero_of_warned (es : List Event) :
    ∀ s : CollectorState, s.warned = true →
    BUFFER_WARNING_THRESHOLD ≤ s.buffer.length → (runInserts s es).2 = 0 := by
  induction es with
  | nil =>
    intro s _ _
    rfl
  | cons e es ih =>
    intro s hw hlen
    have hstep := insertEvent_warned_stays s e hw hlen
    simp only [runInserts]
    rw [hstep.2.2, ih _ hstep.1 hstep.2.1]
    decide

/-- A run of inserts logs the capacity warning at most once. -/
theorem runInserts_warn_le_one :
    ∀ (es : List Event) (s : CollectorState), (runInserts s es).2 ≤ 1 := by
  intro es
  induction es with
  | nil =>
    intro s
    simp [runInserts]
  | cons e es ih =>
    intro s
    simp only [runInserts]
    by_cases hw : (insertEvent s e).2 = true
    · have hpost := insertEvent_post_of_warn s e hw
      rw [hw, runInserts_zero_of_warned es _ hpost.1 hpost.2]
      decide
    · simp only [Bool.not_eq_true] at hw
      rw [hw]
      simpa using ih _

/-- C9: an insert into a full buffer evicts exactly the oldest event and
keeps the newest, so occupancy never exceeds MAX_BUFFER_SIZE; the capacity
warning fires exactly when occupancy is at the high-water mark with the
one-shot flag clear; the flag resets once occupancy drops below half the
mark; any run of inserts warns at most once, and a run starting at or above
the mark with the flag clear warns exactly once. -/
theorem buffer_bound_and_warning :
    ∀ (s : CollectorState) (e : Event) (es : List Event),
    (s.buffer.length ≤ MAX_BUFFER_SIZE →
      (insertEvent s e).1.buffer.length ≤ MAX_BUFFER_SIZE) ∧
    ((insertEvent s e).1.buffer.getLast? = some e) ∧
    (MAX_BUFFER_SIZE ≤ s.buffer.length →
      (insertEvent s e).1.buffer = s.buffer.tail ++ [e]) ∧
    (s.buffer.length < MAX_BUFFER_SIZE →
      (insertEvent s e).1.buffer = s.buffer ++ [e]) ∧
    ((insertEvent s e).2 = true ↔
      (BUFFER_WARNING_THRESHOLD ≤ s.buffer.length ∧ s.warned = false)) ∧
    (s.buffer.length < BUFFER_WARNING_THRESHOLD / 2 →
      (insertEvent s e).1.warned = false) ∧
    ((runInserts s es).2 ≤ 1) ∧
    (s.warned = false → BUFFER_WARNING_THRESHOLD ≤ s.buffer.length → es ≠ [] →
      (runInserts s es).2 = 1) := by
  intro s e es
  refine ⟨?_, ?_, ?_, ?_, insertEvent_warn_iff s e, ?_, runInserts_warn_le_one es s, ?_⟩
  · intro hle
    simp only [insertEvent]
    by_cases hm : MAX_BUFFER_SIZE ≤ s.buffer.length
    · rw [if_pos hm]
      simp only [List.length_append, List.length_drop, List.length_singleton]
      simp only [MAX_BUFFER_SIZE] at hm hle ⊢
      omega
    · rw [if_neg hm]
      simp only [List.length_append, List.length_singleton]
      simp only [MAX_BUFFER_SIZE] at hm hle ⊢
      omega
  · simp only [insertEvent]
    exact List.getLast?_concat _
  · intro hge
    simp only [insertEvent]
    rw [if_pos hge, List.drop_one]
  · intro hlt
    simp only [insertEvent]
    rw [if_neg (by omega)]
  · intro hlow
    simp only [insertEvent]
    simp [hlow]
  · intro hw hlen hne
    rcases es with _ | ⟨e0, es⟩
    · exact absurd rfl hne
    · have hfire : (insertEvent s e0).2 = true := by
        rw [insertEvent_warn_iff]
        exact ⟨hlen, hw⟩
      have hpost := insertEvent_post_of_warn s e0 hfire
      simp only [runInserts]
      rw [hfire, runInserts_zero_of_warned es _ hpost.1 hpost.2]
      decide

/-- Witness for C9: eviction at a full 10000-event buffer, plain append on a
small buffer, flag reset below half the mark, and exactly one warning for a
run starting at the high-water mark with the flag clear. -/
theorem buffer_bound_and_warning_witness :
    (insertEvent ⟨List.replicate 10000 (sampleEvent "old"), false⟩
        (sampleEvent "new")).1.buffer.length ≤ MAX_BUFFER_SIZE ∧
    (insertEvent ⟨List.replicate 10000 (sampleEvent "old"), false⟩
        (sampleEvent "new")).1.buffer =
      (List.replicate 10000 (sampleEvent "old")).tail ++ [sampleEvent "new"] ∧
    (insertEvent ⟨[sampleEvent "a"], false⟩ (sampleEvent "b")).1.buffer =
      [sampleEvent "a"] ++ [sampleEvent "b"] ∧
    (insertEvent ⟨[sampleEvent "a"], true⟩ (sampleEvent "b")).1.warned = false ∧
    (runInserts ⟨List.replicate 8000 (sampleEvent "old"), false⟩
        [sampleEvent "x", sampleEvent "y"]).2 = 1 := by
  have h1 := buffer_bound_and_warning
    ⟨List.replicate 10000 (sampleEvent "old"), false⟩ (sampleEvent "new") []
  have h2 := buffer_bound_and_warning ⟨[sampleEvent "a"], false⟩ (sampleEvent "b") []
  have h3 := buffer_bound_and_warning ⟨[sampleEvent "a"], true⟩ (sampleEvent "b") []
  have h4 := buffer_bound_and_warning
    ⟨List.replicate 8000 (sampleEvent "old"), false⟩ (sampleEvent "x")
    [sampleEvent "x", sampleEvent "y"]
  refine ⟨h1.1 (by rw [List.length_replicate, MAX_BUFFER_SIZE]),
    h1.2.2.1 (by rw [List.length_replicate, MAX_BUFFER_SIZE]),
    h2.2.2.2.1 (by norm_num [MAX_BUFFER_SIZE]),
    h3.2.2.2.2.2.1 (by norm_num [BUFFER_WARNING_THRESHOLD]),
    h4.2.2.2.2.2.2.2 rfl (by rw [List.length_replicate, BUFFER_WARNING_THRESHOLD])
    (by simp)⟩

end Observer
